import Mathlib

/-!
Shallow embedding of the validation and save logic of `timepiece/forms.py`
(django-timepiece form layer).  Timestamps and dates are modelled as `Int`
(any linearly ordered time scale); "the current time" (`datetime.now()`) is
passed in explicitly as a parameter `now`.  Django querysets over a user's
entries are modelled as a `List Entry`; a `filter(...)` followed by a loop
that raises on the first result is modelled with `List.find?`.  Fallible
cleaning methods return `Except`.
-/

namespace Timepiece

/-- A time entry (`timepiece.models.Entry`) restricted to the fields the
form-layer validation reads: its start time and its optional end time
(`none` models a NULL `end_time`, i.e. an open entry). -/
structure Entry where
  start_time : Int
  end_time : Option Int
deriving Repr, DecidableEq

/-- The distinct validation errors raised by the entry forms:
`missing` is the error for an absent start or end
("Please enter a valid start and end date/time."), `future` is
"Entries may not be added in the future.", and `conflict en` is the error
naming the conflicting entry `en`
("The times below conflict with the current entry: ..."). -/
inductive CleanError where
  | missing
  | future
  | conflict (en : Entry)
deriving Repr, DecidableEq

/-- Whether a cleaning result is a rejection that names a conflicting
entry (a `CleanError.conflict`). -/
def isConflict {α : Type} : Except CleanError α → Bool
  | .error (.conflict _) => true
  | _ => false

/-- Whether the (possibly open-ended) span `[s1, e1)` intersects the
(possibly open-ended) span `[s2, e2)`; `none` stands for an open end
extending without bound. -/
def spansOverlap (s1 : Int) (e1 : Option Int) (s2 : Int) (e2 : Option Int) : Bool :=
  (match e2 with
   | none => true
   | some x => decide (s1 < x)) &&
  (match e1 with
   | none => true
   | some x => decide (s2 < x))

/-- Embeds `ClockInForm.clean_start_time`: the user's entries are filtered
by `start_time__gte=start, end_time__isnull=True` and a validation error
naming the first such entry is raised; otherwise the start time is
returned. -/
def clockInCleanStartTime (start : Int) (entries : List Entry) : Except CleanError Int :=
  match entries.find? (fun en => decide (start ≤ en.start_time) && en.end_time.isNone) with
  | some en => .error (.conflict en)
  | none => .ok start

/-- Embeds `AddUpdateEntryForm.clean`: reject when start or end is absent;
reject as `future` when `start >= now` or `end > now`; otherwise filter the
user's entries by
`Q(start_time__lte=end, end_time__isnull=True) | Q(start_time__lte=start, end_time__isnull=True)`
and reject naming the first match; otherwise accept.  Both calls to
`datetime.now()` in the source are modelled by the single parameter
`now`. -/
def addUpdateClean (now : Int) (start end_ : Option Int) (entries : List Entry) :
    Except CleanError Unit :=
  match start, end_ with
  | some s, some e =>
    if now ≤ s ∨ now < e then .error .future
    else
      match entries.find?
          (fun en => (decide (en.start_time ≤ e) || decide (en.start_time ≤ s))
            && en.end_time.isNone) with
      | some en => .error (.conflict en)
      | none => .ok ()
  | _, _ => .error .missing

/-- Embeds `EditPersonForm.clean`: Python string truthiness of
`password_one` is modelled as being nonempty. -/
def editPersonClean (password_one password_two : String) : Except String Unit :=
  if password_one ≠ "" ∧ password_one ≠ password_two then
    .error "Passwords Must Match."
  else .ok ()

/-- The fields of `django.contrib.auth.models.User` that `EditPersonForm`
touches, plus the stored password. -/
structure User where
  username : String
  first_name : String
  last_name : String
  email : String
  is_active : Bool
  is_staff : Bool
  password : String
deriving Repr, DecidableEq

/-- The cleaned data of an `EditPersonForm` submission: the `Meta.fields`
plus the two extra password inputs. -/
structure EditPersonData where
  username : String
  first_name : String
  last_name : String
  email : String
  is_active : Bool
  is_staff : Bool
  password_one : String
  password_two : String
deriving Repr, DecidableEq

/-- Embeds `EditPersonForm.save` on the `commit=True` path: the parent
`ModelForm.save(commit=False)` copies the `Meta.fields` onto the instance,
then `set_password(password_one)` runs only when `password_one` is truthy
(nonempty), then the instance is saved.  `setPassword` abstracts django's
password hashing (`User.set_password`). -/
def editPersonSave (setPassword : String → String) (d : EditPersonData) (u : User) : User :=
  let inst : User :=
    { u with
      username := d.username
      first_name := d.first_name
      last_name := d.last_name
      email := d.email
      is_active := d.is_active
      is_staff := d.is_staff }
  if d.password_one ≠ "" then { inst with password := setPassword d.password_one }
  else inst

/-- The runtime type of the item looked up by `QuickSearchForm`: it can be
a `timepiece.Project`, a `timepiece.Business`, an `auth.User`, or
something else entirely (the autocomplete channel is untyped). -/
inductive SearchItem where
  | project (id : Nat)
  | business (id : Nat)
  | user (id : Nat)
  | other
deriving Repr, DecidableEq

/-- The reversed URLs `QuickSearchForm.clean_quick_search` can produce,
keyed by view name and keyword argument, embedding the three
`reverse(...)` calls. -/
inductive Url where
  | view_project (project_id : Nat)
  | view_business (business : Nat)
  | view_person (person_id : Nat)
deriving Repr, DecidableEq

/-- Embeds `QuickSearchForm.clean_quick_search`: an `isinstance` dispatch
over `Project`, `Business`, `User`, in that order, with a validation error
for anything else. -/
def cleanQuickSearch (item : SearchItem) : Except String Url :=
  match item with
  | .project i => .ok (.view_project i)
  | .business i => .ok (.view_business i)
  | .user i => .ok (.view_person i)
  | .other => .error "Must be a User or Project"

/-- A `timepiece.models.BillingWindow`: a date range `[date, end_date)`
owned by a `RepeatPeriod`. -/
structure BillingWindow where
  date : Int
  end_date : Int
deriving Repr, DecidableEq

/-- The outcomes of `RepeatPeriodForm.clean`: `ok`, the validation error
"New start date must be after <after>" carrying the latest window's end
date, or the `DoesNotExist` exception `billing_windows.latest()` raises
when the period has no windows. -/
inductive RPClean where
  | ok
  | rejected (after : Int)
  | noWindow
deriving Repr, DecidableEq

/-- Embeds `RepeatPeriodForm.clean`: when the form edits an existing
instance (`instance_id` present) and a date was supplied, look up the
latest billing window (modelled as the most recently created, i.e. the
last of the list) and reject when the form is active and the date is
before that window's `end_date`. -/
def repeatPeriodClean (instance_id : Option Nat) (active : Bool) (date : Option Int)
    (windows : List BillingWindow) : RPClean :=
  match instance_id, date with
  | some _, some d =>
    match windows.getLast? with
    | some latest =>
      if active ∧ d < latest.end_date then .rejected latest.end_date else .ok
    | none => .noWindow
  | _, _ => .ok

/-- Embeds `RepeatPeriodForm.save`, returning the period's billing-window
list (`none` models the exceptions of the unguarded paths: a new active
period without a cleaned date, or `billing_windows.latest()` on a period
with no windows).  `delta` stands for the value of `period.delta()`
(derived from `count` and `interval` in `timepiece.models`, outside this
module).  Modelled from the spec: the trailing call to
`period.update_billing_windows()` lives in `timepiece.models` (not in this
module); the spec's billing-rollover description assigns all window
creation to this save method, so that call is modelled as creating no
windows here. -/
def repeatPeriodSave (instance_id : Option Nat) (active : Bool) (date : Option Int)
    (delta : Int) (windows : List BillingWindow) : Option (List BillingWindow) :=
  match instance_id with
  | none =>
    if active then
      match date with
      | some d => some (windows ++ [⟨d, d + delta⟩])
      | none => none
    else some windows
  | some _ =>
    match active, date with
    | true, some d =>
      match windows.getLast? with
      | some latest =>
        if latest.end_date < d then
          some (windows ++ [⟨latest.end_date, d + delta⟩])
        else some windows
      | none => none
    | _, _ => some windows

/-- Claim C7: the clock-in start-time check rejects the submitted start,
raising a validation error that names the conflicting entry, if and only
if some entry of the user has a null `end_time` and a `start_time` greater
than or equal to the submitted start. -/
theorem claim_C7 (start : Int) (entries : List Entry) :
    isConflict (clockInCleanStartTime start entries) = true ↔
      ∃ en ∈ entries, en.end_time = none ∧ start ≤ en.start_time := by
  unfold clockInCleanStartTime
  cases hfind : entries.find?
      (fun en => decide (start ≤ en.start_time) && en.end_time.isNone) with
  | none =>
    rw [List.find?_eq_none] at hfind
    simp only [isConflict, Bool.false_eq_true, false_iff]
    rintro ⟨en, hmem, hnull, hle⟩
    exact hfind en hmem (by simp [hnull, hle])
  | some en =>
    have hmem := List.mem_of_find?_eq_some hfind
    have hp := List.find?_some hfind
    simp only [Bool.and_eq_true, decide_eq_true_eq, Option.isNone_iff_eq_none] at hp
    simp only [isConflict, true_iff]
    exact ⟨en, hmem, hp.2, hp.1⟩

/-- Claim C1: for a candidate entry `[start, end)` (so `start ≤ end`)
that reaches the overlap check of `AddUpdateEntryForm.clean` (both times
present and the future check passing, i.e. `start < now` and
`end ≤ now`), validation rejects with the error naming the conflicting
entry if and only if some existing entry of the user has a null
`end_time` and a `start_time` at or before the candidate's end. -/
theorem claim_C1 (now s e : Int) (entries : List Entry)
    (hs : s < now) (he : e ≤ now) (hse : s ≤ e) :
    isConflict (addUpdateClean now (some s) (some e) entries) = true ↔
      ∃ en ∈ entries, en.end_time = none ∧ en.start_time ≤ e := by
  simp only [addUpdateClean]
  rw [if_neg (by omega : ¬(now ≤ s ∨ now < e))]
  cases hfind : entries.find?
      (fun en => (decide (en.start_time ≤ e) || decide (en.start_time ≤ s))
        && en.end_time.isNone) with
  | none =>
    rw [List.find?_eq_none] at hfind
    simp only [isConflict, Bool.false_eq_true, false_iff]
    rintro ⟨en, hmem, hnull, hle⟩
    exact hfind en hmem (by simp [hnull, hle])
  | some en =>
    have hmem := List.mem_of_find?_eq_some hfind
    have hp := List.find?_some hfind
    simp only [Bool.and_eq_true, Bool.or_eq_true, decide_eq_true_eq,
      Option.isNone_iff_eq_none] at hp
    simp only [isConflict, true_iff]
    exact ⟨en, hmem, hp.2, by omega⟩

/-- Witness for C1 at a concrete input: with an open entry starting at 0,
a candidate `[1, 2)` validated at `now = 10` is rejected naming the
conflicting entry. -/
theorem claim_C1_witness :
    isConflict (addUpdateClean 10 (some 1) (some 2) [⟨0, none⟩]) = true :=
  (claim_C1 10 1 2 [⟨0, none⟩] (by decide) (by decide) (by decide)).mpr
    ⟨⟨0, none⟩, by simp, rfl, by decide⟩

/-- Claim C8: `AddUpdateEntryForm.clean` raises the
"Entries may not be added in the future." error exactly when
`start >= now` or `end > now`; in particular the boundary is asymmetric:
`start = now` is rejected while `end = now` (with `start < now`) is not
rejected by this check. -/
theorem claim_C8 (now s e : Int) (entries : List Entry) :
    addUpdateClean now (some s) (some e) entries = .error .future ↔
      (now ≤ s ∨ now < e) := by
  simp only [addUpdateClean]
  by_cases h : now ≤ s ∨ now < e
  · rw [if_pos h]
    exact iff_of_true rfl h
  · rw [if_neg h]
    refine iff_of_false ?_ h
    cases hfind : entries.find?
        (fun en => (decide (en.start_time ≤ e) || decide (en.start_time ≤ s))
          && en.end_time.isNone) with
    | none => intro hcontra; simp at hcontra
    | some en => intro hcontra; simp at hcontra

/-- Claim C5: `EditPersonForm.clean` raises the "Passwords Must Match."
form error if and only if the first password field is nonempty and
differs from the second. -/
theorem claim_C5 (p1 p2 : String) :
    editPersonClean p1 p2 = .error "Passwords Must Match." ↔
      (p1 ≠ "" ∧ p1 ≠ p2) := by
  unfold editPersonClean
  split
  · next h => exact iff_of_true rfl h
  · next h => exact iff_of_false (fun hcontra => Except.noConfusion hcontra) h

/-- Claim C9: `EditPersonForm.save` stores a password derived from the
first password field exactly when that field is nonempty, leaves the
stored password unchanged when it is empty, and in either case saves the
other listed fields (username, first_name, last_name, email, is_active,
is_staff) from the form data. -/
theorem claim_C9 (setPassword : String → String) (d : EditPersonData) (u : User) :
    (editPersonSave setPassword d u).password =
        (if d.password_one ≠ "" then setPassword d.password_one else u.password) ∧
    (editPersonSave setPassword d u).username = d.username ∧
    (editPersonSave setPassword d u).first_name = d.first_name ∧
    (editPersonSave setPassword d u).last_name = d.last_name ∧
    (editPersonSave setPassword d u).email = d.email ∧
    (editPersonSave setPassword d u).is_active = d.is_active ∧
    (editPersonSave setPassword d u).is_staff = d.is_staff := by
  unfold editPersonSave
  split <;> simp_all

/-- Claim C6: `QuickSearchForm.clean_quick_search` dispatches on the
runtime type of the looked-up item: a Project yields the project-view
URL, a Business the business-view URL, a User the person-view URL, and
any other item raises the validation error "Must be a User or
Project". -/
theorem claim_C6 :
    (∀ i, cleanQuickSearch (.project i) = .ok (.view_project i)) ∧
    (∀ i, cleanQuickSearch (.business i) = .ok (.view_business i)) ∧
    (∀ i, cleanQuickSearch (.user i) = .ok (.view_person i)) ∧
    cleanQuickSearch .other = .error "Must be a User or Project" :=
  ⟨fun _ => rfl, fun _ => rfl, fun _ => rfl, rfl⟩

/-- Claim C2: `RepeatPeriodForm.save` creates, for a new active period,
exactly the one initial window `[date, date + delta)`; for an existing
active period with a supplied start date `d` and latest window `latest`,
it appends exactly the one window `[latest.end_date, d + delta)` when
`d > latest.end_date`, and appends nothing otherwise. -/
theorem claim_C2 (d delta : Int) (i : Nat) (ws : List BillingWindow)
    (latest : BillingWindow) (hlast : ws.getLast? = some latest) :
    repeatPeriodSave none true (some d) delta [] = some [⟨d, d + delta⟩] ∧
    (latest.end_date < d →
      repeatPeriodSave (some i) true (some d) delta ws =
        some (ws ++ [⟨latest.end_date, d + delta⟩])) ∧
    (¬ latest.end_date < d →
      repeatPeriodSave (some i) true (some d) delta ws = some ws) := by
  refine ⟨rfl, fun h => ?_, fun h => ?_⟩ <;>
    simp only [repeatPeriodSave, hlast] <;> simp [h]

/-- Witness for C2 at concrete inputs: a new active period with date 3
and delta 30 gets the window `[3, 33)`; an existing active period with
latest window `[0, 10)` and new date 12 gets `[10, 42)` appended, while
new date 9 appends nothing. -/
theorem claim_C2_witness :
    repeatPeriodSave none true (some 3) 30 [] = some [⟨3, 33⟩] ∧
    repeatPeriodSave (some 1) true (some 12) 30 [⟨0, 10⟩] =
      some [⟨0, 10⟩, ⟨10, 42⟩] ∧
    repeatPeriodSave (some 1) true (some 9) 30 [⟨0, 10⟩] = some [⟨0, 10⟩] :=
  ⟨(claim_C2 3 30 1 [⟨0, 10⟩] ⟨0, 10⟩ rfl).1,
   (claim_C2 12 30 1 [⟨0, 10⟩] ⟨0, 10⟩ rfl).2.1 (by decide),
   (claim_C2 9 30 1 [⟨0, 10⟩] ⟨0, 10⟩ rfl).2.2 (by decide)⟩

/-- Counterexample to claim C3: editing an active period whose latest
window is `[0, 10)` with new start date 12 and delta 30 appends the
window `[10, 42)`; its end date 42 differs from the prior latest
window's end date plus delta, `10 + 30 = 40`. -/
theorem claim_C3_counterexample :
    repeatPeriodSave (some 1) true (some 12) 30 [⟨0, 10⟩] =
      some [⟨0, 10⟩, ⟨10, 42⟩] ∧
    (42 : Int) ≠ (⟨0, 10⟩ : BillingWindow).end_date + 30 := by
  exact ⟨by decide, by decide⟩

/-- Claim C3 as amended: `RepeatPeriodForm.save` only ever appends to the
billing-window list (windows once created are never mutated or removed),
and a window appended to an existing period after the first has its
start date equal to the prior latest window's end date and its end date
equal to the supplied new start date plus delta (not the prior end date
plus delta). -/
theorem claim_C3_amended (instance_id : Option Nat) (active : Bool)
    (date : Option Int) (delta : Int) (ws ws' : List BillingWindow)
    (hsave : repeatPeriodSave instance_id active date delta ws = some ws') :
    (∃ tail, ws' = ws ++ tail) ∧
    (∀ i dt latest, instance_id = some i → active = true → date = some dt →
      ws.getLast? = some latest → latest.end_date < dt →
      ws' = ws ++ [⟨latest.end_date, dt + delta⟩]) := by
  constructor
  · rcases instance_id with - | j
    · simp only [repeatPeriodSave] at hsave
      split at hsave
      · rcases date with - | dt
        · exact absurd hsave (by simp)
        · exact ⟨_, by injection hsave with h; exact h.symm⟩
      · exact ⟨[], by injection hsave with h; simp [← h]⟩
    · rcases active with - | - <;> rcases date with - | dt <;>
        simp only [repeatPeriodSave] at hsave
      · exact ⟨[], by injection hsave with h; simp [← h]⟩
      · exact ⟨[], by injection hsave with h; simp [← h]⟩
      · exact ⟨[], by injection hsave with h; simp [← h]⟩
      · rcases hlast2 : ws.getLast? with - | latest2
        · simp only [hlast2] at hsave
          exact Option.noConfusion hsave
        · simp only [hlast2] at hsave
          split at hsave
          · exact ⟨_, by injection hsave with h; exact h.symm⟩
          · exact ⟨[], by injection hsave with h; simp [← h]⟩
  · rintro i dt latest rfl rfl rfl hlast hlt
    simp only [repeatPeriodSave, hlast] at hsave
    rw [if_pos hlt] at hsave
    injection hsave with h
    exact h.symm

/-- Witness for the amended C3 at a concrete input: the save of
`claim_C3_counterexample` leaves the prior window list a prefix of the
result and appends exactly `[latest.end_date, new_start + delta)`. -/
theorem claim_C3_witness :
    (∃ tail, [(⟨0, 10⟩ : BillingWindow), ⟨10, 42⟩] = [⟨0, 10⟩] ++ tail) ∧
    [(⟨0, 10⟩ : BillingWindow), ⟨10, 42⟩] = [⟨0, 10⟩] ++ [⟨10, 12 + 30⟩] := by
  have h := claim_C3_amended (some 1) true (some 12) 30 [⟨0, 10⟩]
    [⟨0, 10⟩, ⟨10, 42⟩] (by decide)
  exact ⟨h.1, h.2 1 12 ⟨0, 10⟩ rfl rfl rfl rfl (by decide)⟩

/-- Counterexample to claim C4: with a single open entry started at time
0, clocking in at start time 5 passes validation, yet that open entry
overlaps the new (open) entry's span `[5, ∞)`: validation success does
not rule out a second overlapping open entry for the user. -/
theorem claim_C4_counterexample :
    clockInCleanStartTime 5 [⟨0, none⟩] = .ok 5 ∧
    (⟨0, none⟩ : Entry) ∈ [(⟨0, none⟩ : Entry)] ∧
    (⟨0, none⟩ : Entry).end_time = none ∧
    spansOverlap (⟨0, none⟩ : Entry).start_time (⟨0, none⟩ : Entry).end_time
      5 none = true :=
  ⟨rfl, List.mem_singleton.mpr rfl, rfl, rfl⟩

/-- Claim C4 as amended: successful `ClockInForm` validation guarantees
only that no open entry of the user starts at or after the new start
time (an open entry started earlier still overlaps the new open entry);
successful `AddUpdateEntryForm` validation does guarantee that no open
entry of the user overlaps the candidate's span `[start, end)`. -/
theorem claim_C4_amended (s e now : Int) (entries1 entries2 : List Entry) :
    (clockInCleanStartTime s entries1 = .ok s →
      ∀ en ∈ entries1, en.end_time = none → en.start_time < s) ∧
    (addUpdateClean now (some s) (some e) entries2 = .ok () →
      ∀ en ∈ entries2, en.end_time = none →
        spansOverlap en.start_time en.end_time s (some e) = false) := by
  constructor
  · intro hok en hmem hnull
    unfold clockInCleanStartTime at hok
    cases hfind : entries1.find?
        (fun en => decide (s ≤ en.start_time) && en.end_time.isNone) with
    | none =>
      rw [List.find?_eq_none] at hfind
      have h2 := hfind en hmem
      simp only [Bool.and_eq_true, decide_eq_true_eq,
        Option.isNone_iff_eq_none, hnull, and_true, not_le] at h2
      exact h2
    | some x =>
      rw [hfind] at hok
      exact Except.noConfusion hok
  · intro hok en hmem hnull
    simp only [addUpdateClean] at hok
    split at hok
    · exact absurd hok (by simp)
    · cases hfind : entries2.find?
          (fun en => (decide (en.start_time ≤ e) || decide (en.start_time ≤ s))
            && en.end_time.isNone) with
      | none =>
        rw [List.find?_eq_none] at hfind
        have h2 := hfind en hmem
        simp only [Bool.and_eq_true, Bool.or_eq_true, decide_eq_true_eq,
          Option.isNone_iff_eq_none, hnull, and_true, not_or, not_le] at h2
        simp only [spansOverlap, hnull, Bool.and_true]
        simpa using by omega
      | some x =>
        rw [hfind] at hok
        exact absurd hok (by simp)

/-- Witness for the amended C4 at concrete inputs: clock-in at 5 with the
open entry started at 0 succeeds and that entry indeed starts before 5;
add/update of `[5, 6)` at `now = 10` with the open entry started at 8
succeeds and that entry indeed does not overlap `[5, 6)`. -/
theorem claim_C4_witness :
    (⟨0, (none : Option Int)⟩ : Entry).start_time < 5 ∧
    spansOverlap (⟨8, none⟩ : Entry).start_time
      (⟨8, (none : Option Int)⟩ : Entry).end_time 5 (some 6) = false := by
  have h := claim_C4_amended 5 6 10 [⟨0, none⟩] [⟨8, none⟩]
  exact ⟨h.1 rfl ⟨0, none⟩ (by simp) rfl, h.2 rfl ⟨8, none⟩ (by simp) rfl⟩

/-- Claim C10: for an existing active period with a supplied start date
`d` and latest window `latest`, `RepeatPeriodForm.clean` rejects with
"New start date must be after <latest.end_date>" exactly when
`d < latest.end_date`; and when `d = latest.end_date`, clean passes but
save appends no window. -/
theorem claim_C10 (i : Nat) (d delta : Int) (ws : List BillingWindow)
    (latest : BillingWindow) (hlast : ws.getLast? = some latest) :
    (repeatPeriodClean (some i) true (some d) ws = .rejected latest.end_date ↔
      d < latest.end_date) ∧
    (d = latest.end_date →
      repeatPeriodClean (some i) true (some d) ws = .ok ∧
      repeatPeriodSave (some i) true (some d) delta ws = some ws) := by
  constructor
  · simp only [repeatPeriodClean, hlast, true_and]
    by_cases hd : d < latest.end_date
    · rw [if_pos hd]
      exact iff_of_true rfl hd
    · rw [if_neg hd]
      exact iff_of_false (fun hcontra => RPClean.noConfusion hcontra) hd
  · rintro rfl
    constructor
    · simp [repeatPeriodClean, hlast]
    · simp [repeatPeriodSave, hlast]

/-- Witness for C10 at concrete inputs: with latest window `[0, 10)`, a
new date 5 is rejected naming 10, while date 10 passes clean and save
appends nothing. -/
theorem claim_C10_witness :
    repeatPeriodClean (some 1) true (some 5) [⟨0, 10⟩] = .rejected 10 ∧
    repeatPeriodClean (some 1) true (some 10) [⟨0, 10⟩] = .ok ∧
    repeatPeriodSave (some 1) true (some 10) 30 [⟨0, 10⟩] = some [⟨0, 10⟩] := by
  have ha := (claim_C10 1 5 30 [⟨0, 10⟩] ⟨0, 10⟩ rfl).1.mpr (by decide)
  have hb := (claim_C10 1 10 30 [⟨0, 10⟩] ⟨0, 10⟩ rfl).2 rfl
  exact ⟨ha, hb.1, hb.2⟩

end Timepiece
